import Mathlib

/-!
Shallow embedding of the appointment scheduling core of the `boo` clinic
booking repository (Django app `booking`), covering:

* `booking/models.py` — `Appointment` (status enum, `calculate_total_price`,
  `save`), `AppointmentService` (`clean`, `save`), `Schedule`;
* `booking/services/booking_manager.py` — `BookingManager.validate_appointment_time`,
  `get_available_slots`, `create_appointment`, `change_appointment_status`,
  `reschedule_appointment`;
* `booking/views.py` — `AppointmentViewSet.cancel`, `available_slots`,
  `_is_staff_available`, `_calculate_available_slots`;
* `booking/utils.py` — `get_available_slots` (the aggregating variant).

Datetimes are minutes since an epoch (`Nat`); a calendar date is the datetime
divided by 1440 and a time-of-day its remainder, so Python's
`dt.date()` / `dt.time()` comparisons become `/ 1440` and `% 1440`.
Durations are minutes, prices are integer cents.  Django querysets over a
table become `List.filter` over the corresponding list of rows; `first()` on
an unordered queryset is `List.head?`; `first()` on a queryset ordered by a
column is `head?` of a merge sort by that column.  The ambient clock
`timezone.now()` is passed explicitly as a `now` argument to the operations
that read it.  An operation that raises `ValidationError` (or an exception
subclass) is a function into `Except String _` carrying the message; since
every raising path occurs before or instead of the database write (or inside
`transaction.atomic`), an `.error` result leaves the store untouched.
-/

deriving instance DecidableEq for Except

namespace Boo

/-- minutes-since-epoch → calendar date index (Python `dt.date()`). -/
def dateOf (t : Nat) : Nat := t / 1440

/-- minutes-since-epoch → minutes after midnight (Python `dt.time()`). -/
def timeOf (t : Nat) : Nat := t % 1440

/-- `Appointment.APPOINTMENT_STATUS` from `booking/models.py`. -/
inductive Status where
  | PENDING
  | CONFIRMED
  | IN_PROGRESS
  | COMPLETED
  | CANCELLED
deriving DecidableEq, Repr

open Status

/-- The active-status set `['PENDING', 'CONFIRMED', 'IN_PROGRESS']` used by
every overlap query in `booking_manager.py`, `views.py` and `utils.py`. -/
def isActiveStatus : Status → Bool
  | PENDING => true
  | CONFIRMED => true
  | IN_PROGRESS => true
  | COMPLETED => false
  | CANCELLED => false

/-- `Service` row (`booking/models.py`): only the fields the scheduling core
reads.  `duration` in minutes, `price` in cents. -/
structure Service where
  id : Nat
  business : Nat
  duration : Nat
  price : Nat
deriving DecidableEq, Repr

/-- `Schedule` row (`booking/models.py`): (business, staff, date, start
time-of-day, end time-of-day). -/
structure Schedule where
  id : Nat
  business : Nat
  staff : Nat
  date : Nat
  start_time : Nat
  end_time : Nat
deriving DecidableEq, Repr

/-- `Appointment` row (`booking/models.py`). -/
structure Appointment where
  id : Nat
  business : Nat
  client_name : String
  client_phone : String
  status : Status
  total_price : Nat
deriving DecidableEq, Repr

/-- `AppointmentService` row (`booking/models.py`): one booked
(service, staff, time-range) unit belonging to an appointment. -/
structure AppointmentService where
  id : Nat
  appointment_id : Nat
  service_id : Nat
  staff : Nat
  start_time : Nat
  end_time : Nat
  price : Nat
deriving DecidableEq, Repr

/-- `CustomUser` with `user_type == 'STAFF'`: the fields the slot
aggregator reads (`is_active` filter and display name). -/
structure Staff where
  id : Nat
  name : String
  is_active : Bool
deriving DecidableEq, Repr

/-- The database: one list per table, plus the auto-increment counters. -/
structure DB where
  staffTable : List Staff
  svcCatalog : List Service
  schedules : List Schedule
  appointments : List Appointment
  rows : List AppointmentService
  nextApptId : Nat
  nextRowId : Nat
deriving DecidableEq, Repr

/-- `Appointment.objects.get(id=aid)` / following the FK from a row. -/
def findAppointment (db : DB) (aid : Nat) : Option Appointment :=
  db.appointments.find? (fun a => a.id == aid)

/-- `appointment__status__in=['PENDING','CONFIRMED','IN_PROGRESS']` applied
to one `AppointmentService` row: the parent appointment's status is active. -/
def rowActive (db : DB) (r : AppointmentService) : Bool :=
  match findAppointment db r.appointment_id with
  | some a => isActiveStatus a.status
  | none => false

/-- Half-open interval overlap `start_time__lt=end ∧ end_time__gt=start`. -/
def rowOverlaps (r : AppointmentService) (s e : Nat) : Bool :=
  r.start_time < e && r.end_time > s

/-- The `Schedule.objects.filter(...)` kwargs of
`validate_appointment_time`: a schedule row of this staff on the proposed
start's date whose time-of-day window contains the proposed interval. -/
def scheduleCovers (staff s e : Nat) (sch : Schedule) : Bool :=
  sch.staff == staff && sch.date == dateOf s &&
    sch.start_time ≤ timeOf s && sch.end_time ≥ timeOf e

/-- The `AppointmentService.objects.filter(...)` kwargs of
`validate_appointment_time`: same staff, overlapping interval, parent
appointment in an active status. -/
def overlapPred (db : DB) (staff s e : Nat) (r : AppointmentService) : Bool :=
  r.staff == staff && rowOverlaps r s e && rowActive db r

/-- `BookingManager.validate_appointment_time` (booking_manager.py lines
13–47).  Returns the `(bool, message)` pair the Python returns.  The
`exclude_appointment_id` keyword defaults to `None`; Django auto ids are
positive, so `if exclude_appointment_id:` is `some aid` here. -/
def validate_appointment_time (db : DB) (now : Nat) (staff : Nat)
    (start_time end_time : Nat) (exclude_appointment_id : Option Nat := none) :
    Bool × Option String :=
  if start_time < now then
    (false, some "Cannot book appointments in the past")
  else
    let schedule := db.schedules.find? (scheduleCovers staff start_time end_time)
    match schedule with
    | none => (false, some "Selected time is outside of staff working hours")
    | some _ =>
      let overlapping := db.rows.filter (overlapPred db staff start_time end_time)
      let overlapping : List AppointmentService :=
        match exclude_appointment_id with
        | some aid => overlapping.filter (fun r => r.appointment_id != aid)
        | none => overlapping
      if overlapping.isEmpty then (true, none)
      else (false, some "Time slot conflicts with existing appointment")

/-- `AppointmentService.clean` (models.py lines 145–159): start before end,
not in the past, and no overlapping row for the same staff — with NO filter
on the parent appointment's status, and excluding only this row's own pk.
Returns the raised message, or `none` when the row is clean. -/
def appointmentServiceClean (db : DB) (now : Nat) (row : AppointmentService) :
    Option String :=
  if row.start_time ≥ row.end_time then
    some "End time must be after start time"
  else if row.start_time < now then
    some "Cannot book appointments in the past"
  else
    let staff_appointments := db.rows.filter (fun r =>
      r.staff == row.staff && r.start_time < row.end_time &&
      r.end_time > row.start_time && r.id ≠ row.id)
    if staff_appointments.isEmpty then none
    else some "The selected staff member is not available during this time slot"

/-- `AppointmentService.save` (models.py lines 161–163): run `clean`, then
persist — inserting the row when its id is new, replacing it otherwise. -/
def appointmentServiceSave (db : DB) (now : Nat) (row : AppointmentService) :
    Except String DB :=
  match appointmentServiceClean db now row with
  | some msg => .error msg
  | none =>
    if db.rows.any (fun r => r.id == row.id) then
      .ok { db with rows := db.rows.map (fun r => if r.id == row.id then row else r) }
    else
      .ok { db with rows := db.rows ++ [row], nextRowId := db.nextRowId + 1 }

/-- `Appointment.calculate_total_price` (models.py lines 119–120): sum of the
prices of the appointment's current `AppointmentService` rows. -/
def calculate_total_price (db : DB) (aid : Nat) : Nat :=
  ((db.rows.filter (fun r => r.appointment_id == aid)).map (fun r => r.price)).sum

/-- `Appointment.save` (models.py lines 122–124): recompute `total_price`
from the current service rows, then persist (insert or replace). -/
def appointmentSave (db : DB) (appt : Appointment) : DB :=
  let appt := { appt with total_price := calculate_total_price db appt.id }
  if db.appointments.any (fun a => a.id == appt.id) then
    { db with appointments :=
        db.appointments.map (fun a => if a.id == appt.id then appt else a) }
  else
    { db with appointments := db.appointments ++ [appt],
              nextApptId := db.nextApptId + 1 }

/-- `BookingManager.create_appointment` (booking_manager.py lines 95–144),
wrapped in `transaction.atomic`: validate the slot, insert the
`Appointment` (status PENDING — its `save` computes `total_price` over its
still-empty service set), then insert one `AppointmentService` row with the
snapshotted price (its `save` runs `clean`).  Any raise rolls the whole
transaction back, so `.error` carries no store.  Returns the new store and
the returned appointment's id. -/
def create_appointment (db : DB) (now : Nat) (business staff : Nat)
    (service : Service) (start_time : Nat) (client_name client_phone : String) :
    Except String (DB × Nat) :=
  let end_time := start_time + service.duration
  match validate_appointment_time db now staff start_time end_time none with
  | (false, some error_message) => .error error_message
  | (false, none) => .error ""
  | (true, _) =>
    let aid := db.nextApptId
    let db := appointmentSave db
      { id := aid, business := business, client_name := client_name,
        client_phone := client_phone, status := PENDING, total_price := 0 }
    let row : AppointmentService :=
      { id := db.nextRowId, appointment_id := aid, service_id := service.id,
        staff := staff, start_time := start_time, end_time := end_time,
        price := service.price }
    match appointmentServiceSave db now row with
    | .error msg => .error msg
    | .ok db => .ok (db, aid)

/-- `BookingManager.change_appointment_status` (booking_manager.py lines
146–168): reject only when the current status is COMPLETED; otherwise set
the new status and `save` (which recomputes `total_price`).  The Python
takes the appointment object; here it is looked up by id, a missing id
standing for the caller's `DoesNotExist`. -/
def change_appointment_status (db : DB) (aid : Nat) (new_status : Status) :
    Except String DB :=
  match findAppointment db aid with
  | none => .error "Appointment matching query does not exist"
  | some appointment =>
    if appointment.status = COMPLETED then
      .error "Cannot modify completed appointments"
    else
      .ok (appointmentSave db { appointment with status := new_status })

/-- `AppointmentViewSet.cancel` (views.py lines 530–562): reject when the
status is COMPLETED or CANCELLED (`CancellationError`), else set CANCELLED
and `save`. -/
def cancelAppointment (db : DB) (aid : Nat) : Except String DB :=
  match findAppointment db aid with
  | none => .error "Appointment matching query does not exist"
  | some appointment =>
    if appointment.status = COMPLETED || appointment.status = CANCELLED then
      .error "Cannot cancel completed or already cancelled appointments."
    else
      .ok (appointmentSave db { appointment with status := CANCELLED })

/-- `appointment.services.first()`: the related manager ordered by the model
Meta `ordering = ['start_time']`, so the earliest-starting row. -/
def firstServiceRow (db : DB) (aid : Nat) : Option AppointmentService :=
  (List.insertionSort (fun a b => a.start_time ≤ b.start_time)
    (db.rows.filter (fun r => r.appointment_id == aid))).head?

/-- `BookingManager.reschedule_appointment` (booking_manager.py lines
170–208): reject COMPLETED/CANCELLED; read the FIRST service row, compute
`new_end = new_start + its service's duration`, validate the single interval
with the whole appointment excluded, then update that one row (its `save`
runs `clean`).  Sibling rows are not touched.  `staff` is the actor
argument the Python passes on to the validator. -/
def reschedule_appointment (db : DB) (now : Nat) (aid : Nat)
    (new_start_time : Nat) (staff : Nat) : Except String DB :=
  match findAppointment db aid with
  | none => .error "Appointment matching query does not exist"
  | some appointment =>
    if appointment.status = COMPLETED || appointment.status = CANCELLED then
      .error "Cannot reschedule completed or cancelled appointments"
    else
      match firstServiceRow db aid with
      | none => .error "NoneType has no attribute service"
      | some appointment_service =>
        match db.svcCatalog.find? (fun s => s.id == appointment_service.service_id) with
        | none => .error "Service matching query does not exist"
        | some service =>
          let new_end_time := new_start_time + service.duration
          match validate_appointment_time db now staff new_start_time new_end_time
              (some aid) with
          | (false, some error_message) => .error error_message
          | (false, none) => .error ""
          | (true, _) =>
            appointmentServiceSave db now
              { appointment_service with
                  start_time := new_start_time, end_time := new_end_time }

/-- Fuel-driven evaluation of the `while current_time + duration <= end_time`
cursor walk shared by the three slot-generation loops of the source: at each
cursor position inside the guard, append `emit cursor` and advance the
cursor by 30 minutes.  `runCursorWalk` supplies sufficient fuel, and
`runCursorWalk_eq` below proves the exact `while`-loop unfolding, so the
fuel is an evaluation device, not a semantic bound. -/
def cursorWalk (emit : Nat → List α) (dur stop : Nat) : Nat → Nat → List α
  | _, 0 => []
  | cur, fuel + 1 =>
    if cur + dur ≤ stop then emit cur ++ cursorWalk emit dur stop (cur + 30) fuel
    else []

/-- The cursor walk with enough fuel for every iteration of the source's
`while` loop. -/
def runCursorWalk (emit : Nat → List α) (dur stop cur : Nat) : List α :=
  cursorWalk emit dur stop cur (stop + 30 - cur)

theorem cursorWalk_fuel_irrel (emit : Nat → List α) (dur stop : Nat) :
    ∀ fuel fuel' cur, stop + 30 - cur ≤ fuel → stop + 30 - cur ≤ fuel' →
      cursorWalk emit dur stop cur fuel = cursorWalk emit dur stop cur fuel' := by
  intro fuel
  induction fuel with
  | zero =>
    intro fuel' cur h h'
    have hcur : ¬ cur + dur ≤ stop := by omega
    cases fuel' with
    | zero => rfl
    | succ m => simp [cursorWalk, hcur]
  | succ n ih =>
    intro fuel' cur h h'
    cases fuel' with
    | zero =>
      have hcur : ¬ cur + dur ≤ stop := by omega
      simp [cursorWalk, hcur]
    | succ m =>
      by_cases hcur : cur + dur ≤ stop
      · simp only [cursorWalk, if_pos hcur]
        have hrec := ih m (cur + 30) (by omega) (by omega)
        rw [hrec]
      · simp [cursorWalk, hcur]

/-- The defining `while`-loop equation of the cursor walk. -/
theorem runCursorWalk_eq (emit : Nat → List α) (dur stop cur : Nat) :
    runCursorWalk emit dur stop cur =
      if cur + dur ≤ stop then
        emit cur ++ runCursorWalk emit dur stop (cur + 30)
      else [] := by
  unfold runCursorWalk
  cases hn : stop + 30 - cur with
  | zero =>
    have hcur : ¬ cur + dur ≤ stop := by omega
    simp [cursorWalk, hcur]
  | succ m =>
    simp only [cursorWalk]
    by_cases hcur : cur + dur ≤ stop
    · simp only [if_pos hcur]
      rw [cursorWalk_fuel_irrel emit dur stop m (stop + 30 - (cur + 30)) (cur + 30)
        (by omega) (by omega)]
    · simp [hcur]

/-- The `while current_time + service.duration <= end_time` loop of
`BookingManager.get_available_slots` (booking_manager.py lines 74–92):
emit `(cursor, cursor + duration)` when no row of `existing` overlaps it,
and advance the cursor by 30 minutes either way. -/
def slotLoop (existing : List AppointmentService) (dur stop cur : Nat) :
    List (Nat × Nat) :=
  runCursorWalk (fun current_time =>
    let slot_end := current_time + dur
    let is_available :=
      !(existing.any (fun appt =>
        appt.start_time < slot_end && appt.end_time > current_time))
    if is_available then [(current_time, slot_end)] else []) dur stop cur

/-- `BookingManager.get_available_slots` (booking_manager.py lines 49–93):
take the FIRST `Schedule` row for (staff, date) — `[]` when there is none —
gather the active rows of that staff starting on that date ordered by start
time, and walk the single interval in 30-minute steps. -/
def get_available_slots (db : DB) (staff : Nat) (date : Nat) (service : Service) :
    List (Nat × Nat) :=
  match (db.schedules.filter (fun s => s.staff == staff && s.date == date)).head? with
  | none => []
  | some schedule =>
    let existing := List.insertionSort (fun a b => a.start_time ≤ b.start_time)
      (db.rows.filter (fun r =>
        r.staff == staff && dateOf r.start_time == date && rowActive db r))
    slotLoop existing service.duration (date * 1440 + schedule.end_time)
      (date * 1440 + schedule.start_time)

/-- `AppointmentViewSet._is_staff_available` (views.py lines 631–654): a
covering schedule exists and no active row of the staff overlaps
`[start, start + duration)`. -/
def is_staff_available (db : DB) (staff : Nat) (start_time duration : Nat) : Bool :=
  let end_time := start_time + duration
  let schedule := db.schedules.any (fun s =>
    s.staff == staff && s.date == dateOf start_time &&
    s.start_time ≤ timeOf start_time && s.end_time ≥ timeOf end_time)
  if !schedule then false
  else
    let conflicts := db.rows.any (fun r =>
      r.staff == staff && r.start_time < end_time && r.end_time > start_time &&
      rowActive db r)
    !conflicts

/-- The cursor loop of `AppointmentViewSet._calculate_available_slots`
(views.py lines 656–674), with `_is_staff_available` as the per-slot test. -/
def calcSlotsLoop (db : DB) (staff : Nat) (dur stop cur : Nat) : List (Nat × Nat) :=
  runCursorWalk (fun current_time =>
    if is_staff_available db staff current_time dur then
      [(current_time, current_time + dur)]
    else []) dur stop cur

/-- `AppointmentViewSet.available_slots` (views.py lines 596–629): first
`Schedule` row for (staff, date), empty slot list when there is none, else
`_calculate_available_slots` over that schedule's interval. -/
def views_available_slots (db : DB) (staff : Nat) (service : Service) (date : Nat) :
    List (Nat × Nat) :=
  match (db.schedules.filter (fun s => s.staff == staff && s.date == date)).head? with
  | none => []
  | some schedule =>
    calcSlotsLoop db staff service.duration (date * 1440 + schedule.end_time)
      (date * 1440 + schedule.start_time)

/-- One emitted slot of `utils.get_available_slots`: start, end, staff and
the staff display name used as the secondary sort key. -/
structure Slot where
  start_time : Nat
  end_time : Nat
  staff : Nat
  staff_name : String
deriving DecidableEq, Repr

/-- `schedule.staff.get_full_name() or schedule.staff.email`: the display
name of a staff user. -/
def staffName (db : DB) (sid : Nat) : String :=
  match db.staffTable.find? (fun u => u.id == sid) with
  | some u => u.name
  | none => ""

/-- The per-schedule cursor loop of `utils.get_available_slots`
(utils.py lines 53–76): conflicts are looked up in the pre-fetched
`existing` list further filtered to the schedule's staff. -/
def utilsSlotLoop (existing : List AppointmentService) (schedStaff : Nat)
    (name : String) (dur stop cur : Nat) : List Slot :=
  runCursorWalk (fun current_time =>
    let slot_end := current_time + dur
    let conflict := existing.any (fun r =>
      r.staff == schedStaff && r.start_time < slot_end && r.end_time > current_time)
    if conflict then []
    else [{ start_time := current_time, end_time := slot_end, staff := schedStaff,
            staff_name := name }]) dur stop cur

/-- Python's `sorted(..., key=lambda x: (x['start_time'], x['staff_name']))`
comparison: lexicographic on (start minute, staff display name), the name
itself compared as Python compares strings — lexicographically by
character. -/
def slotRel (a b : Slot) : Prop :=
  a.start_time < b.start_time ∨
    (a.start_time = b.start_time ∧ a.staff_name.data ≤ b.staff_name.data)

instance : DecidableRel slotRel := fun a b => by
  unfold slotRel; infer_instance

instance : IsTotal Slot slotRel := by
  constructor
  intro a b
  unfold slotRel
  rcases Nat.lt_trichotomy a.start_time b.start_time with h | h | h
  · exact Or.inl (Or.inl h)
  · rcases le_total a.staff_name.data b.staff_name.data with h2 | h2
    · exact Or.inl (Or.inr ⟨h, h2⟩)
    · exact Or.inr (Or.inr ⟨h.symm, h2⟩)
  · exact Or.inr (Or.inl h)

instance : IsTrans Slot slotRel := by
  constructor
  intro a b c hab hbc
  unfold slotRel at *
  rcases hab with h1 | ⟨h1, h1n⟩ <;> rcases hbc with h2 | ⟨h2, h2n⟩
  · exact Or.inl (h1.trans h2)
  · exact Or.inl (h2 ▸ h1)
  · exact Or.inl (h1 ▸ h2)
  · exact Or.inr ⟨h1.trans h2, le_trans h1n h2n⟩

/-- `utils.get_available_slots` (utils.py lines 14–83): all schedules of the
business's active staff on the date (optionally one staff member), all
active rows of the business inside the day window
`[midnight, midnight + 1439]`, one cursor walk per schedule row, and a
final sort by (start time, staff display name). -/
def utils_get_available_slots (db : DB) (business : Nat) (service : Service)
    (date : Nat) (staff : Option Nat) : List Slot :=
  let start_datetime := date * 1440
  let end_datetime := date * 1440 + 1439
  let schedules := db.schedules.filter (fun s =>
    s.business == business && s.date == date &&
    (match db.staffTable.find? (fun u => u.id == s.staff) with
     | some u => u.is_active
     | none => false))
  let schedules : List Schedule :=
    match staff with
    | some sid => schedules.filter (fun s => s.staff == sid)
    | none => schedules
  let existing := db.rows.filter (fun r =>
    (match findAppointment db r.appointment_id with
     | some a => a.business == business && isActiveStatus a.status
     | none => false) &&
    r.start_time ≥ start_datetime && r.end_time ≤ end_datetime)
  let existing : List AppointmentService :=
    match staff with
    | some sid => existing.filter (fun r => r.staff == sid)
    | none => existing
  let available_slots := schedules.flatMap (fun sched =>
    utilsSlotLoop existing sched.staff (staffName db sched.staff)
      service.duration (date * 1440 + sched.end_time)
      (date * 1440 + sched.start_time))
  List.insertionSort slotRel available_slots

/-- One mutating call into the orchestrator: the four operations the
Booking Ledger is written through. -/
inductive Op where
  | create (now business staff : Nat) (service : Service) (start_time : Nat)
      (client_name client_phone : String)
  | changeStatus (aid : Nat) (new_status : Status)
  | cancel (aid : Nat)
  | reschedule (now aid new_start_time staff : Nat)

/-- Run one operation against the store; a raised `ValidationError` (the
`.error` case) rolls back, leaving the store as it was. -/
def applyOp (db : DB) : Op → DB
  | .create now business staff service start_time n p =>
    match create_appointment db now business staff service start_time n p with
    | .ok (db2, _) => db2
    | .error _ => db
  | .changeStatus aid st =>
    match change_appointment_status db aid st with
    | .ok db2 => db2
    | .error _ => db
  | .cancel aid =>
    match cancelAppointment db aid with
    | .ok db2 => db2
    | .error _ => db
  | .reschedule now aid ns staff =>
    match reschedule_appointment db now aid ns staff with
    | .ok db2 => db2
    | .error _ => db

/-- Stores reachable through the orchestrator: any store whose booking
ledger starts empty (staff, services and schedules are set up by the admin
layer, outside the core), followed by any sequence of operations. -/
inductive Reachable : DB → Prop where
  | init (db : DB) (hrows : db.rows = []) : Reachable db
  | step (db : DB) (op : Op) : Reachable db → Reachable (applyOp db op)

/-- Every ledger row id was issued below the auto-increment counter. -/
def rowsBounded (db : DB) : Prop :=
  ∀ r ∈ db.rows, r.id < db.nextRowId

/-- No two distinct `AppointmentService` rows of one staff member have
overlapping half-open intervals — regardless of appointment status (this is
what `AppointmentService.clean` enforces on every row write). -/
def staffNoOverlap (db : DB) : Prop :=
  ∀ r1 ∈ db.rows, ∀ r2 ∈ db.rows, r1.id ≠ r2.id → r1.staff = r2.staff →
    ¬ (r1.start_time < r2.end_time ∧ r2.start_time < r1.end_time)

/-- The ledger invariant maintained by every orchestrator operation. -/
def WF (db : DB) : Prop := rowsBounded db ∧ staffNoOverlap db

/-! Concrete fixtures used to exercise the operations.  `demoDate` is a far
future calendar date, so `now = 0` keeps every proposal in the future;
minute 540 is 09:00, 570 is 09:30, 720 is 12:00. -/

/-- A 30-minute, 100-cent service of business 1. -/
def demoService : Service := { id := 1, business := 1, duration := 30, price := 100 }

/-- The demo calendar date. -/
def demoDate : Nat := 20000

/-- Minutes-since-epoch of the demo date's midnight. -/
def demoMidnight : Nat := demoDate * 1440

/-- Staff member 1 works 09:00–12:00 on the demo date; no bookings yet. -/
def demoStore : DB :=
  { staffTable := [{ id := 1, name := "Alice", is_active := true }],
    svcCatalog := [demoService],
    schedules := [{ id := 1, business := 1, staff := 1, date := demoDate,
                    start_time := 540, end_time := 720 }],
    appointments := [], rows := [], nextApptId := 1, nextRowId := 1 }

/-- `demoStore` after `create_appointment` booked [09:00, 09:30): one
PENDING appointment whose stored `total_price` is 0, and one service row
priced 100. -/
def demoStoreBooked : DB :=
  { demoStore with
    appointments := [{ id := 1, business := 1, client_name := "c",
                       client_phone := "p", status := Status.PENDING,
                       total_price := 0 }],
    rows := [{ id := 1, appointment_id := 1, service_id := 1, staff := 1,
               start_time := demoMidnight + 540, end_time := demoMidnight + 570,
               price := 100 }],
    nextApptId := 2, nextRowId := 2 }

/-- `demoStoreBooked` after the cancel endpoint: the appointment is
CANCELLED (and its `save` recomputed `total_price` to 100); the service row
remains in the ledger. -/
def demoStoreCancelled : DB :=
  { demoStoreBooked with
    appointments := [{ id := 1, business := 1, client_name := "c",
                       client_phone := "p", status := Status.CANCELLED,
                       total_price := 100 }] }

/-- A second working interval 14:00–15:00 appended after the 09:00–12:00
one (two disjoint `Schedule` rows for staff 1 on the demo date). -/
def demoStoreTwoSchedules : DB :=
  { demoStore with
    schedules := demoStore.schedules ++
      [{ id := 2, business := 1, staff := 1, date := demoDate,
         start_time := 840, end_time := 900 }] }

/-- A CONFIRMED multi-service appointment: rows [09:00, 09:30) and
[10:00, 10:30) for staff 1, who works 09:00–15:00 that day. -/
def demoStoreMulti : DB :=
  { staffTable := [{ id := 1, name := "Alice", is_active := true }],
    svcCatalog := [demoService],
    schedules := [{ id := 1, business := 1, staff := 1, date := demoDate,
                    start_time := 540, end_time := 900 }],
    appointments := [{ id := 1, business := 1, client_name := "c",
                       client_phone := "p", status := Status.CONFIRMED,
                       total_price := 200 }],
    rows := [{ id := 1, appointment_id := 1, service_id := 1, staff := 1,
               start_time := demoMidnight + 540, end_time := demoMidnight + 570,
               price := 100 },
             { id := 2, appointment_id := 1, service_id := 1, staff := 1,
               start_time := demoMidnight + 600, end_time := demoMidnight + 630,
               price := 100 }],
    nextApptId := 2, nextRowId := 3 }

/-- `demoStoreMulti` with the appointment already CANCELLED. -/
def demoStoreMultiCancelled : DB :=
  { demoStoreMulti with
    appointments := [{ id := 1, business := 1, client_name := "c",
                       client_phone := "p", status := Status.CANCELLED,
                       total_price := 200 }] }

/-- `demoStoreMulti` after a successful reschedule to 11:40: the first row
moved to [11:40, 12:10), the sibling row still at [10:00, 10:30). -/
def demoStoreMultiRes : DB :=
  { demoStoreMulti with
    rows := [{ id := 1, appointment_id := 1, service_id := 1, staff := 1,
               start_time := demoMidnight + 700, end_time := demoMidnight + 730,
               price := 100 },
             { id := 2, appointment_id := 1, service_id := 1, staff := 1,
               start_time := demoMidnight + 600, end_time := demoMidnight + 630,
               price := 100 }] }

/-- The store obtained by running one `create` operation on `demoStore`
through the orchestrator (it equals `demoStoreBooked`). -/
def demoReachable : DB :=
  applyOp demoStore (Op.create 0 1 1 demoService (demoMidnight + 540) "c" "p")

/-- `demoStoreMulti` with the appointment already COMPLETED. -/
def demoStoreMultiCompleted : DB :=
  { demoStoreMulti with
    appointments := [{ id := 1, business := 1, client_name := "c",
                       client_phone := "p", status := Status.COMPLETED,
                       total_price := 200 }] }

/-! Helper lemmas. -/

/-- If some schedule row covers the proposal and some active row of the
staff overlaps it (and survives the exclusion), the validator answers with
the double-booking rejection. -/
theorem validate_rejects_overlap (db : DB) (now staff s e : Nat)
    (excl : Option Nat)
    (h1 : ¬ s < now)
    (h2 : ∃ sch ∈ db.schedules, scheduleCovers staff s e sch = true)
    (h3 : ∃ r ∈ db.rows, r.staff = staff ∧ rowActive db r = true ∧
        r.start_time < e ∧ s < r.end_time ∧
        excl.all (fun aid => r.appointment_id != aid) = true) :
    validate_appointment_time db now staff s e excl =
      (false, some "Time slot conflicts with existing appointment") := by
  obtain ⟨r, hr_mem, hr_staff, hr_act, hr_lt, hr_gt, hr_excl⟩ := h3
  have hfind : (db.schedules.find? (scheduleCovers staff s e)).isSome := by
    rw [List.find?_isSome]; exact h2
  obtain ⟨sch', hfind'⟩ := Option.isSome_iff_exists.mp hfind
  have hpred : overlapPred db staff s e r = true := by
    simp [overlapPred, rowOverlaps, hr_staff, hr_act, hr_lt, hr_gt]
  have hmem : r ∈ db.rows.filter (overlapPred db staff s e) :=
    List.mem_filter.mpr ⟨hr_mem, hpred⟩
  cases excl with
  | none =>
    have hne : db.rows.filter (overlapPred db staff s e) ≠ [] :=
      List.ne_nil_of_mem hmem
    simp [validate_appointment_time, if_neg h1, hfind', List.isEmpty_iff, hne]
  | some aid =>
    have hmem2 : r ∈ (db.rows.filter (overlapPred db staff s e)).filter
        (fun x => x.appointment_id != aid) := by
      refine List.mem_filter.mpr ⟨hmem, ?_⟩
      simpa [Option.all_some] using hr_excl
    have hne : (db.rows.filter (overlapPred db staff s e)).filter
        (fun x => x.appointment_id != aid) ≠ [] := List.ne_nil_of_mem hmem2
    simp only [validate_appointment_time, if_neg h1, hfind', List.isEmpty_iff]
    simp [hne]
    refine ⟨r, hr_mem, ?_, hpred⟩
    simpa [Option.all_some, bne_iff_ne] using hr_excl

/-- When the validator rejects, `create_appointment` raises that message. -/
theorem create_propagates_rejection (db : DB) (now business staff : Nat)
    (service : Service) (start_time : Nat) (cn cp : String) (msg : String)
    (h : validate_appointment_time db now staff start_time
        (start_time + service.duration) none = (false, some msg)) :
    create_appointment db now business staff service start_time cn cp =
      .error msg := by
  simp only [create_appointment]
  rw [h]

/-- A row that passes `clean` does not overlap any other stored row of its
staff member (whatever the appointment statuses). -/
theorem clean_none_no_conflict (db : DB) (now : Nat) (row : AppointmentService)
    (h : appointmentServiceClean db now row = none) :
    ∀ r ∈ db.rows, r.staff = row.staff → r.id ≠ row.id →
      ¬ (r.start_time < row.end_time ∧ row.start_time < r.end_time) := by
  intro r hr hstaff hid hov
  simp only [appointmentServiceClean] at h
  split_ifs at h with h1 h2 h3
  · rw [List.isEmpty_iff] at h3
    have : r ∈ db.rows.filter (fun x =>
        x.staff == row.staff && x.start_time < row.end_time &&
        x.end_time > row.start_time && x.id ≠ row.id) := by
      refine List.mem_filter.mpr ⟨hr, ?_⟩
      simp [hstaff, hov.1, hov.2, hid]
    rw [h3] at this
    exact absurd this (List.not_mem_nil r)

/-- What a successful `AppointmentService.save` did to the store. -/
theorem appointmentServiceSave_ok_cases (db : DB) (now : Nat)
    (row : AppointmentService) (db2 : DB)
    (h : appointmentServiceSave db now row = .ok db2) :
    appointmentServiceClean db now row = none ∧
    ((db.rows.any (fun r => r.id == row.id) = true ∧
        db2.rows = db.rows.map (fun r => if r.id == row.id then row else r) ∧
        db2.nextRowId = db.nextRowId) ∨
      (db.rows.any (fun r => r.id == row.id) = false ∧
        db2.rows = db.rows ++ [row] ∧ db2.nextRowId = db.nextRowId + 1)) := by
  unfold appointmentServiceSave at h
  cases hclean : appointmentServiceClean db now row with
  | some msg => rw [hclean] at h; exact Except.noConfusion h
  | none =>
    rw [hclean] at h
    refine ⟨rfl, ?_⟩
    by_cases hany : db.rows.any (fun r => r.id == row.id) = true
    · rw [if_pos hany] at h
      obtain rfl := Except.ok.inj h
      exact Or.inl ⟨hany, rfl, rfl⟩
    · rw [if_neg hany] at h
      obtain rfl := Except.ok.inj h
      exact Or.inr ⟨Bool.eq_false_iff.mpr hany, rfl, rfl⟩

/-- `Appointment.save` never touches the service-row table or its counter. -/
theorem appointmentSave_rows (db : DB) (a : Appointment) :
    (appointmentSave db a).rows = db.rows ∧
      (appointmentSave db a).nextRowId = db.nextRowId := by
  simp only [appointmentSave]
  split <;> exact ⟨rfl, rfl⟩

/-- A successful `AppointmentService.save` of a row whose id is either fresh
off the counter or already present keeps the ledger invariant. -/
theorem save_preserves_WF (db : DB) (now : Nat) (row : AppointmentService)
    (db2 : DB) (hWF : WF db)
    (hid : row.id = db.nextRowId ∨ db.rows.any (fun r => r.id == row.id) = true)
    (h : appointmentServiceSave db now row = .ok db2) : WF db2 := by
  obtain ⟨hbound, hnov⟩ := hWF
  obtain ⟨hclean, hcases⟩ := appointmentServiceSave_ok_cases db now row db2 h
  have hconf := clean_none_no_conflict db now row hclean
  rcases hcases with ⟨hany, hrows, hnext⟩ | ⟨hany, hrows, hnext⟩
  · -- update in place
    constructor
    · intro r hr
      rw [hrows] at hr
      obtain ⟨orig, horig, heq⟩ := List.mem_map.mp hr
      rw [hnext]
      by_cases hcase : (orig.id == row.id) = true
      · rw [if_pos hcase] at heq
        subst heq
        rw [List.any_eq_true] at hany
        obtain ⟨x, hx, hxid⟩ := hany
        rw [beq_iff_eq] at hxid
        rw [← hxid]
        exact hbound x hx
      · rw [if_neg hcase] at heq
        subst heq
        exact hbound orig horig
    · intro r1 h1 r2 h2 hne hstaff
      rw [hrows] at h1 h2
      obtain ⟨o1, ho1, he1⟩ := List.mem_map.mp h1
      obtain ⟨o2, ho2, he2⟩ := List.mem_map.mp h2
      by_cases hc1 : (o1.id == row.id) = true <;>
        by_cases hc2 : (o2.id == row.id) = true
      · rw [if_pos hc1] at he1; rw [if_pos hc2] at he2
        subst he1; subst he2
        exact absurd rfl hne
      · rw [if_pos hc1] at he1; rw [if_neg hc2] at he2
        subst he1; subst he2
        intro hov
        exact hconf o2 ho2 hstaff.symm (by simpa [beq_iff_eq] using hc2)
          ⟨hov.2, hov.1⟩
      · rw [if_neg hc1] at he1; rw [if_pos hc2] at he2
        subst he1; subst he2
        intro hov
        exact hconf o1 ho1 hstaff (by simpa [beq_iff_eq] using hc1) hov
      · rw [if_neg hc1] at he1; rw [if_neg hc2] at he2
        subst he1; subst he2
        exact hnov o1 ho1 o2 ho2 hne hstaff
  · -- fresh insert
    have hfresh : row.id = db.nextRowId := by
      rcases hid with h' | h'
      · exact h'
      · rw [h'] at hany; exact Bool.noConfusion hany
    constructor
    · intro r hr
      rw [hrows] at hr
      rw [hnext]
      rcases List.mem_append.mp hr with h' | h'
      · exact Nat.lt_succ_of_lt (hbound r h')
      · rw [List.mem_singleton.mp h', hfresh]
        exact Nat.lt_succ_self _
    · intro r1 h1 r2 h2 hne hstaff
      rw [hrows] at h1 h2
      have hrow_ne : ∀ r ∈ db.rows, r.id ≠ row.id := by
        intro r hr heq
        have := hbound r hr
        rw [heq, hfresh] at this
        exact Nat.lt_irrefl _ this
      rcases List.mem_append.mp h1 with m1 | m1 <;>
        rcases List.mem_append.mp h2 with m2 | m2
      · exact hnov r1 m1 r2 m2 hne hstaff
      · rw [List.mem_singleton.mp m2]
        rw [List.mem_singleton.mp m2] at hstaff
        intro hov
        exact hconf r1 m1 hstaff (hrow_ne r1 m1) hov
      · rw [List.mem_singleton.mp m1]
        rw [List.mem_singleton.mp m1] at hstaff
        intro hov
        exact hconf r2 m2 hstaff.symm (hrow_ne r2 m2) ⟨hov.2, hov.1⟩
      · rw [List.mem_singleton.mp m1, List.mem_singleton.mp m2] at hne
        exact absurd rfl hne

/-- Looking up `aid` after replacing every appointment of that id with `v`
(where `v.id = aid`) finds `v`. -/
theorem find?_map_replace (l : List Appointment) (v : Appointment) (aid : Nat)
    (hv : v.id = aid)
    (h : l.any (fun x => x.id == aid) = true) :
    (l.map (fun x => if x.id == v.id then v else x)).find?
      (fun x => x.id == aid) = some v := by
  induction l with
  | nil => simp at h
  | cons a t ih =>
    rw [List.any_cons] at h
    by_cases hc : (a.id == aid) = true
    · have hc2 : (a.id == v.id) = true := by rw [hv]; exact hc
      have hc3 : (v.id == aid) = true := by simp [hv]
      simp only [List.map_cons, if_pos hc2]
      exact @List.find?_cons_of_pos _ (fun x => x.id == aid) v _ hc3
    · have h2 : t.any (fun x => x.id == aid) = true := by
        rcases Bool.or_eq_true_iff.mp h with h' | h'
        · exact absurd h' hc
        · exact h'
      have hc2 : (a.id == v.id) = false := by
        rw [hv]; exact Bool.eq_false_iff.mpr hc
      simp only [List.map_cons, if_neg (Bool.eq_false_iff.mp hc2)]
      rw [@List.find?_cons_of_neg _ (fun x => x.id == aid) a _ hc]
      exact ih h2

/-- `Appointment.save` then lookup: the saved appointment is found, with its
`total_price` recomputed from the rows present at save time. -/
theorem findAppointment_appointmentSave (db : DB) (appt : Appointment)
    (h : db.appointments.any (fun x => x.id == appt.id) = true) :
    findAppointment (appointmentSave db appt) appt.id =
      some { appt with total_price := calculate_total_price db appt.id } := by
  unfold findAppointment appointmentSave
  simp only
  rw [if_pos]
  · simpa using find?_map_replace db.appointments
      { appt with total_price := calculate_total_price db appt.id } appt.id rfl h
  · exact h

/-- The ledger invariant only reads the row table and its counter. -/
theorem WF_congr (db db2 : DB) (hrows : db2.rows = db.rows)
    (hnext : db2.nextRowId = db.nextRowId) (h : WF db) : WF db2 := by
  unfold WF rowsBounded staffNoOverlap
  rw [hrows, hnext]
  exact h

/-- The first (earliest-starting) service row of an appointment is a stored
row of that appointment. -/
theorem firstServiceRow_mem (db : DB) (aid : Nat) (r : AppointmentService)
    (h : firstServiceRow db aid = some r) :
    r ∈ db.rows ∧ r.appointment_id = aid := by
  unfold firstServiceRow at h
  have h1 : r ∈ List.insertionSort (fun a b => a.start_time ≤ b.start_time)
      (db.rows.filter (fun x => x.appointment_id == aid)) :=
    List.mem_of_mem_head? (Option.mem_def.mpr h)
  have h2 : r ∈ db.rows.filter (fun x => x.appointment_id == aid) :=
    (List.perm_insertionSort _ _).mem_iff.mp h1
  obtain ⟨hmem, hpred⟩ := List.mem_filter.mp h2
  exact ⟨hmem, by simpa [beq_iff_eq] using hpred⟩

/-- `create_appointment` keeps the ledger invariant. -/
theorem create_preserves_WF (db : DB) (now business staff : Nat)
    (service : Service) (start : Nat) (cn cp : String) (db2 : DB) (aid : Nat)
    (hWF : WF db)
    (h : create_appointment db now business staff service start cn cp =
      .ok (db2, aid)) : WF db2 := by
  simp only [create_appointment] at h
  cases hv : validate_appointment_time db now staff start
      (start + service.duration) none with
  | mk ok msg =>
    rw [hv] at h
    cases ok with
    | false => cases msg <;> exact Except.noConfusion h
    | true =>
      set db1 := appointmentSave db
        { id := db.nextApptId, business := business, client_name := cn,
          client_phone := cp, status := PENDING, total_price := 0 } with hdb1
      set row : AppointmentService :=
        { id := db1.nextRowId, appointment_id := db.nextApptId,
          service_id := service.id, staff := staff, start_time := start,
          end_time := start + service.duration, price := service.price }
      cases hsave : appointmentServiceSave db1 now row with
      | error msg2 => rw [hsave] at h; exact Except.noConfusion h
      | ok dbS =>
        rw [hsave] at h
        have h2 := Except.ok.inj h
        injection h2 with h3 h4
        have hWF1 : WF db1 := by
          obtain ⟨hr, hn⟩ := appointmentSave_rows db _
          exact WF_congr db db1 hr hn hWF
        have := save_preserves_WF db1 now row dbS hWF1 (Or.inl rfl) hsave
        rw [← h3]
        exact this

/-- `change_appointment_status` keeps the ledger invariant. -/
theorem changeStatus_preserves_WF (db : DB) (aid : Nat) (st : Status)
    (db2 : DB) (hWF : WF db)
    (h : change_appointment_status db aid st = .ok db2) : WF db2 := by
  cases hfa : findAppointment db aid with
  | none =>
    simp only [change_appointment_status, hfa] at h
    exact Except.noConfusion h
  | some appt =>
    simp only [change_appointment_status, hfa] at h
    split_ifs at h
    obtain rfl := Except.ok.inj h
    obtain ⟨hr, hn⟩ := appointmentSave_rows db { appt with status := st }
    exact WF_congr db _ hr hn hWF

/-- The cancel endpoint keeps the ledger invariant. -/
theorem cancel_preserves_WF (db : DB) (aid : Nat) (db2 : DB) (hWF : WF db)
    (h : cancelAppointment db aid = .ok db2) : WF db2 := by
  cases hfa : findAppointment db aid with
  | none =>
    simp only [cancelAppointment, hfa] at h
    exact Except.noConfusion h
  | some appt =>
    simp only [cancelAppointment, hfa] at h
    split_ifs at h
    obtain rfl := Except.ok.inj h
    obtain ⟨hr, hn⟩ := appointmentSave_rows db { appt with status := CANCELLED }
    exact WF_congr db _ hr hn hWF

/-- `reschedule_appointment` keeps the ledger invariant. -/
theorem reschedule_preserves_WF (db : DB) (now aid ns act : Nat) (db2 : DB)
    (hWF : WF db)
    (h : reschedule_appointment db now aid ns act = .ok db2) : WF db2 := by
  cases hfa : findAppointment db aid with
  | none =>
    simp only [reschedule_appointment, hfa] at h
    exact Except.noConfusion h
  | some appt =>
    simp only [reschedule_appointment, hfa] at h
    split_ifs at h
    cases hfr : firstServiceRow db aid with
    | none => simp only [hfr] at h; exact Except.noConfusion h
    | some r0 =>
      simp only [hfr] at h
      cases hcat : db.svcCatalog.find? (fun s => s.id == r0.service_id) with
      | none => simp only [hcat] at h; exact Except.noConfusion h
      | some svc =>
        simp only [hcat] at h
        cases hv : validate_appointment_time db now act ns (ns + svc.duration)
            (some aid) with
        | mk ok msg =>
          rw [hv] at h
          cases ok with
          | false => cases msg <;> exact Except.noConfusion h
          | true =>
            have hmem := (firstServiceRow_mem db aid r0 hfr).1
            exact save_preserves_WF db now _ db2 hWF
              (Or.inr (List.any_eq_true.mpr ⟨r0, hmem, by simp⟩)) h

/-- Every orchestrator operation keeps the ledger invariant. -/
theorem applyOp_preserves_WF (db : DB) (op : Op) (hWF : WF db) :
    WF (applyOp db op) := by
  cases op with
  | create now business staff service start cn cp =>
    simp only [applyOp]
    cases hc : create_appointment db now business staff service start cn cp with
    | error msg => exact hWF
    | ok pair =>
      exact create_preserves_WF db now business staff service start cn cp
        pair.1 pair.2 hWF (by rw [hc])
  | changeStatus aid st =>
    simp only [applyOp]
    cases hc : change_appointment_status db aid st with
    | error msg => exact hWF
    | ok db2 => exact changeStatus_preserves_WF db aid st db2 hWF hc
  | cancel aid =>
    simp only [applyOp]
    cases hc : cancelAppointment db aid with
    | error msg => exact hWF
    | ok db2 => exact cancel_preserves_WF db aid db2 hWF hc
  | reschedule now aid ns act =>
    simp only [applyOp]
    cases hc : reschedule_appointment db now aid ns act with
    | error msg => exact hWF
    | ok db2 => exact reschedule_preserves_WF db now aid ns act db2 hWF hc

/-- Every reachable store satisfies the ledger invariant. -/
theorem reachable_WF (db : DB) (h : Reachable db) : WF db := by
  induction h with
  | init db hrows =>
    constructor
    · intro r hr; rw [hrows] at hr; exact absurd hr (List.not_mem_nil r)
    · intro r1 h1; rw [hrows] at h1; exact absurd h1 (List.not_mem_nil r1)
  | step db op _ ih => exact applyOp_preserves_WF db op ih

/-- What a successful `reschedule_appointment` consists of: the earliest
service row is looked up, its service resolved, and the row saved with the
new interval. -/
theorem reschedule_ok_analysis (db : DB) (now aid ns act : Nat) (db2 : DB)
    (h : reschedule_appointment db now aid ns act = .ok db2) :
    ∃ r0 svc, firstServiceRow db aid = some r0 ∧
      db.svcCatalog.find? (fun s => s.id == r0.service_id) = some svc ∧
      appointmentServiceSave db now
        { r0 with start_time := ns, end_time := ns + svc.duration } =
        .ok db2 := by
  cases hfa : findAppointment db aid with
  | none =>
    simp only [reschedule_appointment, hfa] at h
    exact Except.noConfusion h
  | some appt =>
    simp only [reschedule_appointment, hfa] at h
    split_ifs at h
    cases hfr : firstServiceRow db aid with
    | none => simp only [hfr] at h; exact Except.noConfusion h
    | some r0 =>
      simp only [hfr] at h
      cases hcat : db.svcCatalog.find? (fun s => s.id == r0.service_id) with
      | none => simp only [hcat] at h; exact Except.noConfusion h
      | some svc =>
        simp only [hcat] at h
        cases hv : validate_appointment_time db now act ns (ns + svc.duration)
            (some aid) with
        | mk ok msg =>
          rw [hv] at h
          cases ok with
          | false => cases msg <;> exact Except.noConfusion h
          | true => exact ⟨r0, svc, rfl, hcat, h⟩

/-! Claim theorems. -/

/-- C1: if an `AppointmentService` of the staff whose parent appointment is
PENDING, CONFIRMED or IN_PROGRESS, is not excluded, and satisfies
`existing.start < proposed_end ∧ existing.end > proposed_start`, then the
validator — and hence `create_appointment` — rejects with the
double-booking error; and on every store reachable through the
orchestrator, no two distinct active `AppointmentService` rows of one
staff member overlap. -/
theorem c1_no_double_booking :
    (∀ (db : DB) (now staff s e : Nat) (excl : Option Nat),
        ¬ s < now →
        (∃ sch ∈ db.schedules, scheduleCovers staff s e sch = true) →
        (∃ r ∈ db.rows, r.staff = staff ∧ rowActive db r = true ∧
            r.start_time < e ∧ s < r.end_time ∧
            excl.all (fun aid => r.appointment_id != aid) = true) →
        validate_appointment_time db now staff s e excl =
          (false, some "Time slot conflicts with existing appointment")) ∧
    (∀ (db : DB) (now business staff : Nat) (service : Service)
        (start : Nat) (cn cp : String),
        ¬ start < now →
        (∃ sch ∈ db.schedules,
            scheduleCovers staff start (start + service.duration) sch = true) →
        (∃ r ∈ db.rows, r.staff = staff ∧ rowActive db r = true ∧
            r.start_time < start + service.duration ∧ start < r.end_time) →
        create_appointment db now business staff service start cn cp =
          .error "Time slot conflicts with existing appointment") ∧
    (∀ db : DB, Reachable db →
        ∀ r1 ∈ db.rows, ∀ r2 ∈ db.rows, r1.id ≠ r2.id → r1.staff = r2.staff →
          rowActive db r1 = true → rowActive db r2 = true →
          ¬ (r1.start_time < r2.end_time ∧ r2.start_time < r1.end_time)) := by
  refine ⟨?_, ?_, ?_⟩
  · intro db now staff s e excl h1 h2 h3
    exact validate_rejects_overlap db now staff s e excl h1 h2 h3
  · intro db now business staff service start cn cp h1 h2 h3
    refine create_propagates_rejection db now business staff service start cn cp _ ?_
    refine validate_rejects_overlap db now staff start (start + service.duration)
      none h1 h2 ?_
    obtain ⟨r, hm, ha, hb, hc, hd⟩ := h3
    exact ⟨r, hm, ha, hb, hc, hd, rfl⟩
  · intro db hreach r1 h1 r2 h2 hne hstaff _ _
    exact (reachable_WF db hreach).2 r1 h1 r2 h2 hne hstaff

/-- Witness for C1: staff 1 already holds [09:00, 09:30); proposing
[09:15, 09:45) is rejected by validator and by `create_appointment`, and
the invariant holds on a store reached by one orchestrated `create`. -/
theorem c1_no_double_booking_witness :
    validate_appointment_time demoStoreBooked 0 1 (demoMidnight + 555)
        (demoMidnight + 585) none =
      (false, some "Time slot conflicts with existing appointment") ∧
    create_appointment demoStoreBooked 0 1 1 demoService (demoMidnight + 555)
        "x" "y" = .error "Time slot conflicts with existing appointment" ∧
    (∀ r1 ∈ demoReachable.rows, ∀ r2 ∈ demoReachable.rows,
        r1.id ≠ r2.id → r1.staff = r2.staff →
        rowActive demoReachable r1 = true → rowActive demoReachable r2 = true →
        ¬ (r1.start_time < r2.end_time ∧ r2.start_time < r1.end_time)) :=
  ⟨c1_no_double_booking.1 demoStoreBooked 0 1 (demoMidnight + 555)
      (demoMidnight + 585) none (by decide) (by decide) (by decide),
   c1_no_double_booking.2.1 demoStoreBooked 0 1 1 demoService
      (demoMidnight + 555) "x" "y" (by decide) (by decide) (by decide),
   c1_no_double_booking.2.2 demoReachable
      (Reachable.step demoStore _ (Reachable.init demoStore rfl))⟩

/-- C2 (code bug): cancelling does free the slot as far as the validator is
concerned — `validate_appointment_time` accepts the identical interval
immediately after the cancel — but the subsequent `create_appointment`
still fails, because `AppointmentService.clean` checks overlaps against
rows of EVERY appointment status, so the cancelled appointment's stored row
blocks the insert. -/
theorem c2_cancel_does_not_free_slot :
    cancelAppointment demoStoreBooked 1 = .ok demoStoreCancelled ∧
    (findAppointment demoStoreCancelled 1).map (fun a => a.status) =
      some CANCELLED ∧
    validate_appointment_time demoStoreCancelled 0 1 (demoMidnight + 540)
        (demoMidnight + 570) none = (true, none) ∧
    create_appointment demoStoreCancelled 0 1 1 demoService
        (demoMidnight + 540) "c2" "p2" =
      .error "The selected staff member is not available during this time slot" := by
  exact ⟨by decide, by decide, by decide, by decide⟩

/-- C3 counterexample: `change_appointment_status` happily moves a
CANCELLED appointment back to CONFIRMED — CANCELLED is not treated as
terminal and no state-machine validation happens. -/
theorem c3_counterexample :
    (findAppointment demoStoreMultiCancelled 1).map (fun a => a.status) =
      some CANCELLED ∧
    change_appointment_status demoStoreMultiCancelled 1 CONFIRMED =
      .ok demoStoreMulti ∧
    (findAppointment demoStoreMulti 1).map (fun a => a.status) =
      some CONFIRMED := by
  exact ⟨by decide, by decide, by decide⟩

/-- C3 amended: `change_appointment_status` rejects only appointments whose
current status is COMPLETED; from any other status (including CANCELLED) it
stores whatever status is requested, with no transition validation.  The
cancel endpoint separately rejects cancelling a COMPLETED or
already-CANCELLED appointment. -/
theorem c3_status_change_amended :
    (∀ (db : DB) (aid : Nat) (st : Status) (a : Appointment),
        findAppointment db aid = some a → a.status = COMPLETED →
        change_appointment_status db aid st =
          .error "Cannot modify completed appointments") ∧
    (∀ (db : DB) (aid : Nat) (st : Status) (a : Appointment),
        findAppointment db aid = some a → a.status ≠ COMPLETED →
        change_appointment_status db aid st =
          .ok (appointmentSave db { a with status := st }) ∧
        (findAppointment (appointmentSave db { a with status := st }) aid).map
          (fun x => x.status) = some st) ∧
    (∀ (db : DB) (aid : Nat) (a : Appointment),
        findAppointment db aid = some a →
        (a.status = COMPLETED ∨ a.status = CANCELLED) →
        cancelAppointment db aid =
          .error "Cannot cancel completed or already cancelled appointments.") := by
  refine ⟨?_, ?_, ?_⟩
  · intro db aid st a hfa hst
    simp [change_appointment_status, hfa, hst]
  · intro db aid st a hfa hst
    have hid : a.id = aid := by
      have := List.find?_some hfa
      simpa [beq_iff_eq] using this
    have hmem : a ∈ db.appointments := List.mem_of_find?_eq_some hfa
    have hany : db.appointments.any
        (fun x => x.id == ({ a with status := st } : Appointment).id) = true :=
      List.any_eq_true.mpr ⟨a, hmem, by simp⟩
    constructor
    · simp [change_appointment_status, hfa, hst]
    · have hfind : findAppointment (appointmentSave db { a with status := st })
          a.id = some { a with
            status := st
            total_price := calculate_total_price db a.id } :=
        findAppointment_appointmentSave db { a with status := st } hany
      rw [← hid, hfind]
      rfl
  · intro db aid a hfa hst
    rcases hst with h | h <;> simp [cancelAppointment, hfa, h]

/-- Witness for C3 amended: a COMPLETED appointment rejects any change; a
CANCELLED one accepts CONFIRMED; cancel refuses an already-CANCELLED
appointment. -/
theorem c3_status_change_amended_witness :
    change_appointment_status demoStoreMultiCompleted 1 CONFIRMED =
      .error "Cannot modify completed appointments" ∧
    (change_appointment_status demoStoreMultiCancelled 1 CONFIRMED =
        .ok (appointmentSave demoStoreMultiCancelled
          { id := 1, business := 1, client_name := "c", client_phone := "p",
            status := CONFIRMED, total_price := 200 }) ∧
      (findAppointment (appointmentSave demoStoreMultiCancelled
          { id := 1, business := 1, client_name := "c", client_phone := "p",
            status := CONFIRMED, total_price := 200 }) 1).map
        (fun x => x.status) = some CONFIRMED) ∧
    cancelAppointment demoStoreMultiCancelled 1 =
      .error "Cannot cancel completed or already cancelled appointments." :=
  ⟨c3_status_change_amended.1 demoStoreMultiCompleted 1 CONFIRMED
      { id := 1, business := 1, client_name := "c", client_phone := "p",
        status := COMPLETED, total_price := 200 } (by decide) (by decide),
   c3_status_change_amended.2.1 demoStoreMultiCancelled 1 CONFIRMED
      { id := 1, business := 1, client_name := "c", client_phone := "p",
        status := CANCELLED, total_price := 200 } (by decide) (by decide),
   c3_status_change_amended.2.2 demoStoreMultiCancelled 1
      { id := 1, business := 1, client_name := "c", client_phone := "p",
        status := CANCELLED, total_price := 200 } (by decide)
      (Or.inr (by decide))⟩

/-- C4 (code bug): `create_appointment` inserts the `Appointment` before its
`AppointmentService` row and never re-saves it, so the returned
appointment's stored `total_price` is 0 while the sum of its service-row
prices (the model's own `calculate_total_price`) is the snapshotted 100. -/
theorem c4_total_price_stale :
    create_appointment demoStore 0 1 1 demoService (demoMidnight + 540)
        "c" "p" = .ok (demoStoreBooked, 1) ∧
    (findAppointment demoStoreBooked 1).map (fun a => a.total_price) =
      some 0 ∧
    calculate_total_price demoStoreBooked 1 = 100 ∧
    demoService.price = 100 := by
  exact ⟨by decide, by decide, by decide, by decide⟩

/-- C5 counterexample: rescheduling the two-service CONFIRMED appointment
(rows [09:00, 09:30) and [10:00, 10:30)) to 11:40 succeeds — but only the
first row moves; the sibling row is NOT shifted by Δ = 160 minutes to
[12:40, 13:10): it still sits at [10:00, 10:30). -/
theorem c5_counterexample :
    reschedule_appointment demoStoreMulti 0 1 (demoMidnight + 700) 1 =
      .ok demoStoreMultiRes ∧
    (demoStoreMultiRes.rows.filter (fun r => r.id == 2)).map
      (fun r => (r.start_time, r.end_time)) =
      [(demoMidnight + 600, demoMidnight + 630)] ∧
    ¬ ∃ r ∈ demoStoreMultiRes.rows, r.id = 2 ∧
        r.start_time = demoMidnight + 760 := by
  exact ⟨by decide, by decide, by decide⟩

/-- C5 amended: reschedule rejects COMPLETED/CANCELLED appointments; on
success it rewrites ONLY the earliest service row to
`[new_start, new_start + its service's duration)`, leaving every other row
(sibling services included) stored unchanged; and a rejected reschedule
leaves the store untouched. -/
theorem c5_reschedule_amended :
    (∀ (db : DB) (now aid ns act : Nat) (a : Appointment),
        findAppointment db aid = some a →
        (a.status = COMPLETED ∨ a.status = CANCELLED) →
        reschedule_appointment db now aid ns act =
          .error "Cannot reschedule completed or cancelled appointments") ∧
    (∀ (db : DB) (now aid ns act : Nat) (db2 : DB),
        reschedule_appointment db now aid ns act = .ok db2 →
        ∃ r0 svc, firstServiceRow db aid = some r0 ∧
          db.svcCatalog.find? (fun s => s.id == r0.service_id) = some svc ∧
          db2.rows = db.rows.map (fun r =>
            if r.id == r0.id then
              { r0 with start_time := ns, end_time := ns + svc.duration }
            else r) ∧
          ∀ r ∈ db.rows, r.id ≠ r0.id → r ∈ db2.rows) ∧
    (∀ (db : DB) (now aid ns act : Nat) (msg : String),
        reschedule_appointment db now aid ns act = .error msg →
        applyOp db (Op.reschedule now aid ns act) = db) := by
  refine ⟨?_, ?_, ?_⟩
  · intro db now aid ns act a hfa hst
    rcases hst with h | h <;>
      simp [reschedule_appointment, hfa, h]
  · intro db now aid ns act db2 h
    obtain ⟨r0, svc, hfr, hcat, hsave⟩ :=
      reschedule_ok_analysis db now aid ns act db2 h
    obtain ⟨hmem, _⟩ := firstServiceRow_mem db aid r0 hfr
    obtain ⟨_, hcases⟩ := appointmentServiceSave_ok_cases db now _ db2 hsave
    rcases hcases with ⟨_, hrows, _⟩ | ⟨hany, _, _⟩
    · refine ⟨r0, svc, hfr, hcat, hrows, ?_⟩
      intro r hr hne
      rw [hrows]
      refine List.mem_map.mpr ⟨r, hr, ?_⟩
      rw [if_neg]
      simpa [beq_iff_eq] using hne
    · exfalso
      have : db.rows.any (fun r =>
          r.id == ({ r0 with
            start_time := ns
            end_time := ns + svc.duration } : AppointmentService).id) =
          true := List.any_eq_true.mpr ⟨r0, hmem, by simp⟩
      rw [this] at hany
      exact Bool.noConfusion hany
  · intro db now aid ns act msg h
    simp only [applyOp, h]

/-- Witness for C5 amended: the CANCELLED two-service appointment cannot be
rescheduled; the successful reschedule of `demoStoreMulti` moved only row 1
and kept row 2; the rejected 10:45 reschedule (sibling conflict at save
time) left the store untouched. -/
theorem c5_reschedule_amended_witness :
    reschedule_appointment demoStoreMultiCancelled 0 1 (demoMidnight + 700) 1 =
      .error "Cannot reschedule completed or cancelled appointments" ∧
    (∃ r0 svc, firstServiceRow demoStoreMulti 1 = some r0 ∧
      demoStoreMulti.svcCatalog.find? (fun s => s.id == r0.service_id) =
        some svc ∧
      demoStoreMultiRes.rows = demoStoreMulti.rows.map (fun r =>
        if r.id == r0.id then
          { r0 with
            start_time := demoMidnight + 700
            end_time := demoMidnight + 700 + svc.duration }
        else r) ∧
      ∀ r ∈ demoStoreMulti.rows, r.id ≠ r0.id → r ∈ demoStoreMultiRes.rows) ∧
    applyOp demoStoreMulti (Op.reschedule 0 1 (demoMidnight + 585) 1) =
      demoStoreMulti :=
  ⟨c5_reschedule_amended.1 demoStoreMultiCancelled 0 1 (demoMidnight + 700) 1
      { id := 1, business := 1, client_name := "c", client_phone := "p",
        status := CANCELLED, total_price := 200 } (by decide)
      (Or.inr (by decide)),
   c5_reschedule_amended.2.1 demoStoreMulti 0 1 (demoMidnight + 700) 1
      demoStoreMultiRes (by decide),
   c5_reschedule_amended.2.2 demoStoreMulti 0 1 (demoMidnight + 585) 1
      "The selected staff member is not available during this time slot"
      (by decide)⟩

/-- C6 counterexample: a proposal with `start >= end` (both the degenerate
equal case and a reversed one), in the future and inside working hours, is
ACCEPTED by the validator — there is no INVALID_RANGE rejection in
`validate_appointment_time`. -/
theorem c6_counterexample :
    demoMidnight + 600 ≥ demoMidnight + 600 ∧
    validate_appointment_time demoStore 0 1 (demoMidnight + 600)
        (demoMidnight + 600) none = (true, none) ∧
    demoMidnight + 610 ≥ demoMidnight + 600 ∧
    validate_appointment_time demoStore 0 1 (demoMidnight + 610)
        (demoMidnight + 600) none = (true, none) := by
  exact ⟨by decide, by decide, by decide, by decide⟩

/-- C6 amended: the validator's checks run in order — past-date, then
working hours, then overlap — with the first failure winning, but it has NO
`start >= end` check: a degenerate interval that passes those three checks
is accepted.  `start < end` is enforced only later, at
`AppointmentService.clean` time. -/
theorem c6_validator_order_amended :
    (∀ (db : DB) (now staff s e : Nat) (excl : Option Nat), s < now →
        validate_appointment_time db now staff s e excl =
          (false, some "Cannot book appointments in the past")) ∧
    (∀ (db : DB) (now staff s e : Nat) (excl : Option Nat), ¬ s < now →
        db.schedules.find? (scheduleCovers staff s e) = none →
        validate_appointment_time db now staff s e excl =
          (false, some "Selected time is outside of staff working hours")) ∧
    (∀ (db : DB) (now staff s e : Nat), ¬ s < now → s ≥ e →
        (db.schedules.find? (scheduleCovers staff s e)).isSome →
        (∀ r ∈ db.rows, overlapPred db staff s e r = false) →
        validate_appointment_time db now staff s e none = (true, none)) ∧
    (∀ (db : DB) (now : Nat) (row : AppointmentService),
        row.start_time ≥ row.end_time →
        appointmentServiceClean db now row =
          some "End time must be after start time") := by
  refine ⟨?_, ?_, ?_, ?_⟩
  · intro db now staff s e excl h
    simp [validate_appointment_time, h]
  · intro db now staff s e excl h1 h2
    simp [validate_appointment_time, h1, h2]
  · intro db now staff s e h1 _ h3 h4
    obtain ⟨sch, hs⟩ := Option.isSome_iff_exists.mp h3
    have hnil : db.rows.filter (overlapPred db staff s e) = [] :=
      List.filter_eq_nil_iff.mpr (fun r hr => by simp [h4 r hr])
    simp [validate_appointment_time, h1, hs, hnil]
  · intro db now row h
    simp [appointmentServiceClean, h]

/-- Witness for C6 amended: each branch of the order characterization at a
concrete input, including acceptance of the empty interval [10:00, 10:00)
and `clean` rejecting a reversed interval. -/
theorem c6_validator_order_amended_witness :
    validate_appointment_time demoStore (demoMidnight + 700) 1
        (demoMidnight + 600) (demoMidnight + 630) none =
      (false, some "Cannot book appointments in the past") ∧
    validate_appointment_time demoStore 0 1 1000 1030 none =
      (false, some "Selected time is outside of staff working hours") ∧
    validate_appointment_time demoStore 0 1 (demoMidnight + 600)
        (demoMidnight + 600) none = (true, none) ∧
    appointmentServiceClean demoStore 0
      { id := 9, appointment_id := 1, service_id := 1, staff := 1,
        start_time := demoMidnight + 630, end_time := demoMidnight + 600,
        price := 0 } = some "End time must be after start time" :=
  ⟨c6_validator_order_amended.1 demoStore (demoMidnight + 700) 1
      (demoMidnight + 600) (demoMidnight + 630) none (by decide),
   c6_validator_order_amended.2.1 demoStore 0 1 1000 1030 none (by decide)
      (by decide),
   c6_validator_order_amended.2.2.1 demoStore 0 1 (demoMidnight + 600)
      (demoMidnight + 600) (by decide) (by decide) (by decide) (by decide),
   c6_validator_order_amended.2.2.2 demoStore 0
      { id := 9, appointment_id := 1, service_id := 1, staff := 1,
        start_time := demoMidnight + 630, end_time := demoMidnight + 600,
        price := 0 } (by decide)⟩

/-- C10: when no `Schedule` row exists for (staff, date), both
`BookingManager.get_available_slots` and the `available_slots` endpoint
return the empty slot list rather than an error. -/
theorem c10_no_schedule_empty :
    ∀ (db : DB) (staff date : Nat) (service : Service),
      (∀ sch ∈ db.schedules, ¬ (sch.staff = staff ∧ sch.date = date)) →
      get_available_slots db staff date service = [] ∧
      views_available_slots db staff service date = [] := by
  intro db staff date service h
  have hnil : db.schedules.filter
      (fun s => s.staff == staff && s.date == date) = [] := by
    refine List.filter_eq_nil_iff.mpr (fun sch hs => ?_)
    have := h sch hs
    simp only [Bool.and_eq_true, beq_iff_eq]
    intro hc
    exact this ⟨hc.1, hc.2⟩
  constructor
  · simp [get_available_slots, hnil]
  · simp [views_available_slots, hnil]

/-- C7: on the scenario store (schedule 09:00–12:00, 30-minute service, no
bookings) slot generation — both the `BookingManager` version and the
viewset version — emits exactly the six slots starting 09:00, 09:30,
10:00, 10:30, 11:00 and 11:30 in chronological order: every 30-minute
cursor position whose end fits inside the interval is emitted, and no slot
starts at 12:00. -/
theorem c7_slot_generation_scenario :
    get_available_slots demoStore 1 demoDate demoService =
      [(demoMidnight + 540, demoMidnight + 570),
       (demoMidnight + 570, demoMidnight + 600),
       (demoMidnight + 600, demoMidnight + 630),
       (demoMidnight + 630, demoMidnight + 660),
       (demoMidnight + 660, demoMidnight + 690),
       (demoMidnight + 690, demoMidnight + 720)] ∧
    views_available_slots demoStore 1 demoService demoDate =
      get_available_slots demoStore 1 demoDate demoService ∧
    (∀ k, k < 6 →
      (demoMidnight + 540 + 30 * k, demoMidnight + 570 + 30 * k) ∈
        get_available_slots demoStore 1 demoDate demoService) ∧
    (∀ p ∈ get_available_slots demoStore 1 demoDate demoService,
      p.1 ≠ demoMidnight + 720) := by
  exact ⟨by decide, by decide, by decide, by decide⟩

/-- C8 counterexample: staff 1 has TWO disjoint schedule rows on the demo
date, [09:00, 12:00) and [14:00, 15:00), yet
`BookingManager.get_available_slots` emits only the six slots of the first
row — the 14:00 interval, though free and scheduled, contributes nothing. -/
theorem c8_counterexample :
    demoStoreTwoSchedules.schedules.length = 2 ∧
    get_available_slots demoStoreTwoSchedules 1 demoDate demoService =
      [(demoMidnight + 540, demoMidnight + 570),
       (demoMidnight + 570, demoMidnight + 600),
       (demoMidnight + 600, demoMidnight + 630),
       (demoMidnight + 630, demoMidnight + 660),
       (demoMidnight + 660, demoMidnight + 690),
       (demoMidnight + 690, demoMidnight + 720)] ∧
    (demoMidnight + 840, demoMidnight + 870) ∉
      get_available_slots demoStoreTwoSchedules 1 demoDate demoService := by
  exact ⟨by decide, by decide, by decide⟩

/-- C8 amended: `BookingManager.get_available_slots` consults only the
first matching `Schedule` row — appending further schedule rows changes
nothing once one row matches — while the `utils.get_available_slots`
aggregator walks every schedule row of the date (the two-interval store
yields slots from both intervals) and returns its output sorted by
(start time, staff display name). -/
theorem c8_slots_amended :
    (∀ (db : DB) (staff date : Nat) (service : Service)
        (extra : List Schedule),
        db.schedules.filter (fun s => s.staff == staff && s.date == date) ≠ [] →
        get_available_slots { db with schedules := db.schedules ++ extra }
          staff date service = get_available_slots db staff date service) ∧
    (∀ (db : DB) (business : Nat) (service : Service) (date : Nat)
        (staffq : Option Nat),
        List.Sorted slotRel
          (utils_get_available_slots db business service date staffq)) ∧
    utils_get_available_slots demoStoreTwoSchedules 1 demoService demoDate
        none =
      [{ start_time := demoMidnight + 540, end_time := demoMidnight + 570,
         staff := 1, staff_name := "Alice" },
       { start_time := demoMidnight + 570, end_time := demoMidnight + 600,
         staff := 1, staff_name := "Alice" },
       { start_time := demoMidnight + 600, end_time := demoMidnight + 630,
         staff := 1, staff_name := "Alice" },
       { start_time := demoMidnight + 630, end_time := demoMidnight + 660,
         staff := 1, staff_name := "Alice" },
       { start_time := demoMidnight + 660, end_time := demoMidnight + 690,
         staff := 1, staff_name := "Alice" },
       { start_time := demoMidnight + 690, end_time := demoMidnight + 720,
         staff := 1, staff_name := "Alice" },
       { start_time := demoMidnight + 840, end_time := demoMidnight + 870,
         staff := 1, staff_name := "Alice" },
       { start_time := demoMidnight + 870, end_time := demoMidnight + 900,
         staff := 1, staff_name := "Alice" }] := by
  refine ⟨?_, ?_, by decide⟩
  · intro db staff date service extra hne
    unfold get_available_slots
    simp only [List.filter_append]
    cases hfz : db.schedules.filter (fun s => s.staff == staff && s.date == date) with
    | nil => exact absurd hfz hne
    | cons a t =>
      rfl
  · intro db business service date staffq
    unfold utils_get_available_slots
    exact List.sorted_insertionSort slotRel _

/-- Witness for C8 amended: appending the 14:00–15:00 schedule row to the
demo store leaves the manager's slot output unchanged. -/
theorem c8_slots_amended_witness :
    get_available_slots demoStoreTwoSchedules 1 demoDate demoService =
      get_available_slots demoStore 1 demoDate demoService ∧
    List.Sorted slotRel
      (utils_get_available_slots demoStoreTwoSchedules 1 demoService demoDate
        none) :=
  ⟨c8_slots_amended.1 demoStore 1 demoDate demoService
      [{ id := 2, business := 1, staff := 1, date := demoDate,
         start_time := 840, end_time := 900 }] (by decide),
   c8_slots_amended.2.1 demoStoreTwoSchedules 1 demoService demoDate none⟩

/-- C9 counterexample: rescheduling the two-service appointment to 09:45
passes the validator — whose exclusion is keyed by the whole appointment,
so the sibling row [10:00, 10:30) is ignored there — but the reschedule
nevertheless fails at `AppointmentService.save` time: `clean` excludes only
the row being saved, and the shifted first service [09:45, 10:15) DOES
conflict with its sibling. -/
theorem c9_counterexample :
    validate_appointment_time demoStoreMulti 0 1 (demoMidnight + 585)
        (demoMidnight + 615) (some 1) = (true, none) ∧
    reschedule_appointment demoStoreMulti 0 1 (demoMidnight + 585) 1 =
      .error "The selected staff member is not available during this time slot" := by
  exact ⟨by decide, by decide⟩

/-- C9 amended: the validator's double-booking exclusion is indeed keyed by
the whole appointment — validating with `exclude_appointment_id = aid` is
the same as validating with all of that appointment's rows removed — but
the model-level save check excludes only the saved row's own pk, so a
shifted service can still fail against a sibling row of its own
appointment. -/
theorem c9_exclusion_amended :
    (∀ (db : DB) (now staff s e aid : Nat),
        validate_appointment_time db now staff s e (some aid) =
          validate_appointment_time
            { db with rows := db.rows.filter (fun r => r.appointment_id != aid) }
            now staff s e none) ∧
    (∀ (db : DB) (now : Nat) (row sib : AppointmentService),
        sib ∈ db.rows → sib.id ≠ row.id → sib.staff = row.staff →
        sib.start_time < row.end_time → row.start_time < sib.end_time →
        row.start_time < row.end_time → ¬ row.start_time < now →
        appointmentServiceSave db now row =
          .error "The selected staff member is not available during this time slot") := by
  constructor
  · intro db now staff s e aid
    by_cases h1 : s < now
    · simp [validate_appointment_time, h1]
    · simp only [validate_appointment_time, if_neg h1]
      have hsched : ({ db with
          rows := db.rows.filter (fun r => r.appointment_id != aid) } :
            DB).schedules = db.schedules := rfl
      rw [hsched]
      cases hf : db.schedules.find? (scheduleCovers staff s e) with
      | none => rfl
      | some sch =>
        have hact : ∀ r, rowActive { db with
            rows := db.rows.filter (fun r2 => r2.appointment_id != aid) } r =
            rowActive db r := fun r => rfl
        have hcomm : (db.rows.filter (overlapPred db staff s e)).filter
              (fun r => r.appointment_id != aid) =
            (db.rows.filter (fun r => r.appointment_id != aid)).filter
              (overlapPred db staff s e) := by
          rw [List.filter_filter, List.filter_filter]
          apply List.filter_congr
          intro a _
          exact Bool.and_comm _ _
        simp only [hf]
        simp only [hcomm]
        rfl
  · intro db now row sib hmem hid hstaff hs1 hs2 hrange hpast
    have hpred : (fun r : AppointmentService =>
        r.staff == row.staff && r.start_time < row.end_time &&
        r.end_time > row.start_time && r.id ≠ row.id) sib = true := by
      simp [hstaff, hs1, hs2, hid]
    have hne : db.rows.filter (fun r =>
        r.staff == row.staff && r.start_time < row.end_time &&
        r.end_time > row.start_time && r.id ≠ row.id) ≠ [] :=
      List.ne_nil_of_mem (List.mem_filter.mpr ⟨hmem, hpred⟩)
    have hclean : appointmentServiceClean db now row =
        some "The selected staff member is not available during this time slot" := by
      have h1 : ¬ row.start_time ≥ row.end_time := by omega
      simp only [appointmentServiceClean, if_neg h1, if_neg hpast]
      simp [List.isEmpty_iff, hne]
      exact ⟨sib, hmem, hstaff, hs1, hs2, hid⟩
    simp only [appointmentServiceSave, hclean]

/-- Witness for C9 amended: the whole-appointment exclusion equality at the
multi-service store, and the sibling-conflict save failure for the shifted
first service. -/
theorem c9_exclusion_amended_witness :
    validate_appointment_time demoStoreMulti 0 1 (demoMidnight + 585)
        (demoMidnight + 615) (some 1) =
      validate_appointment_time
        { demoStoreMulti with
          rows := demoStoreMulti.rows.filter (fun r => r.appointment_id != 1) }
        0 1 (demoMidnight + 585) (demoMidnight + 615) none ∧
    appointmentServiceSave demoStoreMulti 0
      { id := 1, appointment_id := 1, service_id := 1, staff := 1,
        start_time := demoMidnight + 585, end_time := demoMidnight + 615,
        price := 100 } =
      .error "The selected staff member is not available during this time slot" :=
  ⟨c9_exclusion_amended.1 demoStoreMulti 0 1 (demoMidnight + 585)
      (demoMidnight + 615) 1,
   c9_exclusion_amended.2 demoStoreMulti 0
      { id := 1, appointment_id := 1, service_id := 1, staff := 1,
        start_time := demoMidnight + 585, end_time := demoMidnight + 615,
        price := 100 }
      { id := 2, appointment_id := 1, service_id := 1, staff := 1,
        start_time := demoMidnight + 600, end_time := demoMidnight + 630,
        price := 100 }
      (by decide) (by decide) (by decide) (by decide) (by decide) (by decide)
      (by decide)⟩

/-- Witness for C10: staff 1 has no schedule row on the day after the demo
date, so slot generation yields the empty list. -/
theorem c10_no_schedule_empty_witness :
    get_available_slots demoStore 1 (demoDate + 1) demoService = [] ∧
    views_available_slots demoStore 1 demoService (demoDate + 1) = [] :=
  c10_no_schedule_empty demoStore 1 (demoDate + 1) demoService (by decide)

end Boo

